import Mathlib

/-!
Verification of the blocked-server pattern matcher from `src/server_block.rs`
(crate `mojang`). The matcher owns an immutable list of SHA-1 hash strings and
answers whether an address matches a blocked pattern (exact, IPv4 wildcard
`a.b.c.*`, or hostname wildcard `*.b.c`).

The embedding models Rust strings as Lean `String`, byte sequences as
`List Nat` (each element a byte value), and 32-bit words as `Nat` reduced
modulo `2 ^ 32` at every operation that can overflow. The SHA-1 function used
by `is_pattern_blocked` (the `sha1` crate's `Sha1::digest` followed by the
`generic_array` uppercase-hex rendering and Rust's `str::to_lowercase`) is
implemented from the standard SHA-1 algorithm, since it is an external
dependency of the crate.
-/

set_option maxRecDepth 100000

namespace Mojang

/-! ### 32-bit arithmetic helpers -/

/-- `2 ^ 32`, the modulus for 32-bit words. -/
def w32 : Nat := 4294967296

/-- Left-rotation of a 32-bit word (`u32::rotate_left`); the argument is
assumed already reduced below `2 ^ 32`, which every caller maintains. -/
def rotl (n x : Nat) : Nat := (x * 2 ^ n + x / 2 ^ (32 - n)) % w32

/-- Bitwise complement of a 32-bit word (`!x` on `u32`). -/
def not32 (x : Nat) : Nat := 4294967295 - x

/-! ### UTF-8 encoding (`str::as_bytes`) -/

/-- Standard UTF-8 encoding of a single scalar value. -/
def utf8EncodeChar (c : Char) : List Nat :=
  let n := c.toNat
  if n < 128 then [n]
  else if n < 2048 then [192 + n / 64, 128 + n % 64]
  else if n < 65536 then [224 + n / 4096, 128 + n / 64 % 64, 128 + n % 64]
  else [240 + n / 262144, 128 + n / 4096 % 64, 128 + n / 64 % 64, 128 + n % 64]

/-- The UTF-8 bytes of a string, as `pattern.as_bytes()` yields them. -/
def utf8Bytes (s : String) : List Nat := s.data.flatMap utf8EncodeChar

/-! ### SHA-1 (`sha1::Sha1::digest`) -/

/-- Group a byte list into big-endian 32-bit words (4 bytes per word). -/
def bytesToWords : List Nat → List Nat
  | b0 :: b1 :: b2 :: b3 :: rest =>
      (b0 * 16777216 + b1 * 65536 + b2 * 256 + b3) :: bytesToWords rest
  | _ => []

/-- One step of the SHA-1 message-schedule extension: append
`rotl 1 (w[t-3] xor w[t-8] xor w[t-14] xor w[t-16])`. -/
def scheduleStep (ws : List Nat) : List Nat :=
  ws ++ [rotl 1 ((ws.getD (ws.length - 3) 0) ^^^ (ws.getD (ws.length - 8) 0) ^^^
                 (ws.getD (ws.length - 14) 0) ^^^ (ws.getD (ws.length - 16) 0))]

/-- Extend the 16 chunk words to the 80 schedule words. -/
def schedule (ws : List Nat) : List Nat := scheduleStep^[64] ws

/-- One SHA-1 round: `t` is the round index, the 5-tuple is `(a,b,c,d,e)`,
`w` the schedule word. -/
def sha1Round (t : Nat) (st : Nat × Nat × Nat × Nat × Nat) (w : Nat) :
    Nat × Nat × Nat × Nat × Nat :=
  let (a, b, c, d, e) := st
  let f :=
    if t < 20 then (b &&& c) ||| (not32 b &&& d)
    else if t < 40 then b ^^^ c ^^^ d
    else if t < 60 then (b &&& c) ||| (b &&& d) ||| (c &&& d)
    else b ^^^ c ^^^ d
  let k :=
    if t < 20 then 1518500249
    else if t < 40 then 1859775393
    else if t < 60 then 2400959708
    else 3395469782
  ((rotl 5 a + f + e + k + w) % w32, a, rotl 30 b, c, d)

/-- Process one 64-byte chunk, updating the running hash state. -/
def compress (h : Nat × Nat × Nat × Nat × Nat) (chunk : List Nat) :
    Nat × Nat × Nat × Nat × Nat :=
  let (h0, h1, h2, h3, h4) := h
  let ws := schedule (bytesToWords chunk)
  let (a, b, c, d, e) :=
    ws.enum.foldl (fun st p => sha1Round p.1 st p.2) (h0, h1, h2, h3, h4)
  ((h0 + a) % w32, (h1 + b) % w32, (h2 + c) % w32, (h3 + d) % w32, (h4 + e) % w32)

/-- Split a byte list into 64-byte chunks; the fuel argument (instantiated
with the list length, an upper bound on the number of chunks) keeps the
recursion structural. -/
def chunks64Go : Nat → List Nat → List (List Nat)
  | 0, _ => []
  | _, [] => []
  | fuel + 1, b :: rest => ((b :: rest).take 64) :: chunks64Go fuel ((b :: rest).drop 64)

/-- Split a byte list into 64-byte chunks. -/
def chunks64 (l : List Nat) : List (List Nat) := chunks64Go l.length l

/-- Big-endian 8-byte rendering of a 64-bit length value. -/
def lenBE8 (n : Nat) : List Nat :=
  [n / 72057594037927936 % 256, n / 281474976710656 % 256,
   n / 1099511627776 % 256, n / 4294967296 % 256,
   n / 16777216 % 256, n / 65536 % 256, n / 256 % 256, n % 256]

/-- Big-endian 4-byte rendering of a 32-bit word. -/
def wordBE4 (w : Nat) : List Nat :=
  [w / 16777216 % 256, w / 65536 % 256, w / 256 % 256, w % 256]

/-- SHA-1 of a byte message: pad to a multiple of 64 bytes (`0x80`, zeros,
64-bit big-endian bit length) and fold `compress` over the chunks; the digest
is the 20-byte big-endian rendering of the final five state words. -/
def sha1Bytes (msg : List Nat) : List Nat :=
  let padded := msg ++ 128 :: (List.replicate ((119 - msg.length % 64) % 64) 0 ++
    lenBE8 (8 * msg.length))
  let (h0, h1, h2, h3, h4) :=
    (chunks64 padded).foldl compress
      (1732584193, 4023233417, 2562383102, 271733878, 3285377520)
  wordBE4 h0 ++ wordBE4 h1 ++ wordBE4 h2 ++ wordBE4 h3 ++ wordBE4 h4

/-! ### Hex rendering and case mapping

`format!("{:#02X}", Sha1::digest(..))` uses `generic_array`'s `UpperHex`
instance, which writes each byte as exactly two uppercase hex digits (the
alternate/width flags are ignored by that instance, and the minimum width 2 is
below the 40 characters produced); `.to_lowercase()` then lowercases the
ASCII result. -/

/-- Uppercase hex digit for a value below 16 (`0`–`9`, `A`–`F`). -/
def hexDigitUpper (n : Nat) : Char :=
  if n < 10 then Char.ofNat (48 + n) else Char.ofNat (55 + n)

/-- The two uppercase hex digits of a byte, high nibble first. -/
def hexByteUpper (b : Nat) : List Char := [hexDigitUpper (b / 16), hexDigitUpper (b % 16)]

/-- Rust `char` lowercasing restricted to its action on ASCII, the only
characters a hex rendering produces. -/
def toLowerChar (c : Char) : Char :=
  if 'A' ≤ c ∧ c ≤ 'Z' then Char.ofNat (c.toNat + 32) else c

/-- Rust `char` uppercasing restricted to its action on ASCII. -/
def toUpperChar (c : Char) : Char :=
  if 'a' ≤ c ∧ c ≤ 'z' then Char.ofNat (c.toNat - 32) else c

/-- `str::to_uppercase` on ASCII strings. -/
def toUpperString (s : String) : String := String.mk (s.data.map toUpperChar)

/-- The hash string computed by `is_pattern_blocked`:
`format!("{:#02X}", Sha1::digest(pattern.as_bytes())).to_lowercase()`. -/
def sha1HexLower (pattern : String) : String :=
  String.mk (((sha1Bytes (utf8Bytes pattern)).flatMap hexByteUpper).map toLowerChar)

/-! ### `u8::from_str` (`str::parse::<u8>()`)

Rust's unsigned integer parsing: an optional leading `+`, then a nonempty run
of ASCII decimal digits, accumulated with checked arithmetic so that any value
exceeding 255 fails. A leading `-` is not stripped for unsigned types and so
fails the digit check; whitespace likewise fails. -/

/-- One checked accumulation step, `acc * 10 + digit` failing above 255. -/
def parseU8Step (acc : Option Nat) (c : Char) : Option Nat :=
  match acc with
  | none => none
  | some v =>
      if c.isDigit then
        if v * 10 + (c.toNat - 48) ≤ 255 then some (v * 10 + (c.toNat - 48)) else none
      else none

/-- `str::parse::<u8>()`, returning the parsed value. -/
def parseU8 (s : String) : Option Nat :=
  match s.data with
  | [] => none
  | '+' :: rest => if rest.isEmpty then none else rest.foldl parseU8Step (some 0)
  | cs => cs.foldl parseU8Step (some 0)

/-! ### The matcher (`src/server_block.rs`) -/

/-- Accumulator-style splitting of a character list at `'.'`; `acc` holds the
current segment reversed. -/
def splitDotAux : List Char → List Char → List String
  | [], acc => [String.mk acc.reverse]
  | c :: rest, acc =>
      if c = '.' then String.mk acc.reverse :: splitDotAux rest []
      else splitDotAux rest (c :: acc)

/-- Rust's `address.split('.').collect::<Vec<&str>>()`: every maximal run
between dots, including empty segments (`""` splits to `[""]`, `"a."` to
`["a", ""]`). -/
def splitOnDot (s : String) : List String := splitDotAux s.data []

/-- `pub fn is_ipv4(ip: &[&str]) -> bool`: exactly four segments, each a valid
`u8`. -/
def is_ipv4 (ip : List String) : Bool :=
  ip.length == 4 && ip.all fun x => (parseU8 x).isSome

/-- `pub struct BlockedServers { pub hashes: Vec<String> }`. -/
structure BlockedServers where
  hashes : List String
deriving DecidableEq

/-- `fn is_pattern_blocked(&self, pattern: &str) -> bool`: hash the pattern,
lowercase the hex rendering, and test `Vec::contains`. -/
def BlockedServers.is_pattern_blocked (self : BlockedServers) (pattern : String) : Bool :=
  self.hashes.contains (sha1HexLower pattern)

/-- `pub fn find_blocked_pattern(&self, address: &str) -> Option<Cow<str>>`:
exact match first, then the IPv4 or hostname wildcard candidates. The Rust
ranges `(1..address_parts.len()).rev()` and `(1..address_parts.len())` are
`(List.range' 1 (n - 1)).reverse` and `List.range' 1 (n - 1)`. -/
def BlockedServers.find_blocked_pattern (self : BlockedServers) (address : String) :
    Option String :=
  let address_parts := splitOnDot address
  if self.is_pattern_blocked address then some address
  else if is_ipv4 address_parts then
    ((List.range' 1 (address_parts.length - 1)).reverse.map
        fun i => String.intercalate "." (address_parts.take i) ++ ".*").find?
      fun pattern => self.is_pattern_blocked pattern
  else
    ((List.range' 1 (address_parts.length - 1)).map
        fun i => "*." ++ String.intercalate "." (address_parts.drop i)).find?
      fun pattern => self.is_pattern_blocked pattern

/-- `pub fn is_blocked(&self, address: &str) -> bool`. -/
def BlockedServers.is_blocked (self : BlockedServers) (address : String) : Bool :=
  (self.find_blocked_pattern address).isSome

/-! ### Spec-side candidate sequences

These two definitions follow the spec's own words for the candidate order, to
be compared against the code path of `find_blocked_pattern`:
for IPv4, "the first `i` segments (for `i` from `segment_count - 1` down
to `1`) joined by `.` and appended with `.*`"; for hostnames, "the last
`segment_count - i` segments (for `i` from `1` up to `segment_count - 1`)
joined by `.` and prefixed with `*.`". -/

/-- IPv4 wildcard candidates in the spec's order, most specific first. -/
def ipv4Candidates (parts : List String) : List String :=
  (List.range' 1 (parts.length - 1)).reverse.map
    fun i => String.intercalate "." (parts.take i) ++ ".*"

/-- Hostname wildcard candidates in the spec's order, most specific first. -/
def hostnameCandidates (parts : List String) : List String :=
  (List.range' 1 (parts.length - 1)).map
    fun i => "*." ++ String.intercalate "." (parts.drop i)

/-- The sixteen characters a lowercased hex rendering can produce. -/
def hexLowerDigits : List Char := "0123456789abcdef".data

/-! ### Helper lemmas -/

/-- The membership test of `is_pattern_blocked` is exact string equality
against the stored hash list. -/
lemma is_pattern_blocked_iff (B : BlockedServers) (p : String) :
    B.is_pattern_blocked p = true ↔ sha1HexLower p ∈ B.hashes := by
  simp [BlockedServers.is_pattern_blocked, List.contains, List.elem_iff]

lemma is_pattern_blocked_eq_false (B : BlockedServers) (p : String)
    (h : sha1HexLower p ∉ B.hashes) : B.is_pattern_blocked p = false := by
  by_contra hc
  exact h ((is_pattern_blocked_iff B p).mp (by revert hc; cases B.is_pattern_blocked p <;> simp))

/-- The exact-match branch: a hash hit on the whole address returns it. -/
lemma exact_branch (B : BlockedServers) (a : String)
    (h : B.is_pattern_blocked a = true) : B.find_blocked_pattern a = some a := by
  simp [BlockedServers.find_blocked_pattern, h]

/-- The IPv4 branch of `find_blocked_pattern` scans the spec's candidate
sequence. -/
lemma ipv4_branch (B : BlockedServers) (a : String)
    (h1 : B.is_pattern_blocked a = false) (h2 : is_ipv4 (splitOnDot a) = true) :
    B.find_blocked_pattern a =
      (ipv4Candidates (splitOnDot a)).find? fun p => B.is_pattern_blocked p := by
  simp [BlockedServers.find_blocked_pattern, ipv4Candidates, h1, h2]

/-- The hostname branch of `find_blocked_pattern` scans the spec's candidate
sequence. -/
lemma hostname_branch (B : BlockedServers) (a : String)
    (h1 : B.is_pattern_blocked a = false) (h2 : is_ipv4 (splitOnDot a) = false) :
    B.find_blocked_pattern a =
      (hostnameCandidates (splitOnDot a)).find? fun p => B.is_pattern_blocked p := by
  simp [BlockedServers.find_blocked_pattern, hostnameCandidates, h1, h2]

lemma wordBE4_lt (w : Nat) : ∀ b ∈ wordBE4 w, b < 256 := by
  intro b hb
  simp [wordBE4] at hb
  rcases hb with h | h | h | h <;> subst h <;> exact Nat.mod_lt _ (by norm_num)

lemma sha1Bytes_lt (msg : List Nat) : ∀ b ∈ sha1Bytes msg, b < 256 := by
  intro b hb
  simp only [sha1Bytes, List.mem_append] at hb
  rcases hb with (((h | h) | h) | h) | h <;> exact wordBE4_lt _ b h

lemma sha1Bytes_length (msg : List Nat) : (sha1Bytes msg).length = 20 := by
  simp [sha1Bytes, wordBE4]

lemma hexByteUpper_flatMap_length (l : List Nat) :
    (l.flatMap hexByteUpper).length = 2 * l.length := by
  induction l with
  | nil => rfl
  | cons b t ih => simp [hexByteUpper, ih]; omega

lemma sha1HexLower_length (p : String) : (sha1HexLower p).length = 40 := by
  show (((sha1Bytes (utf8Bytes p)).flatMap hexByteUpper).map toLowerChar).length = 40
  rw [List.length_map, hexByteUpper_flatMap_length, sha1Bytes_length]

lemma toLower_hexDigit_mem : ∀ n, n < 16 → toLowerChar (hexDigitUpper n) ∈ hexLowerDigits := by
  decide

lemma sha1HexLower_chars (p : String) : ∀ c ∈ (sha1HexLower p).data, c ∈ hexLowerDigits := by
  intro c hc
  simp only [sha1HexLower] at hc
  obtain ⟨c', hc', rfl⟩ := List.mem_map.mp hc
  obtain ⟨b, hb, hcb⟩ := List.mem_flatMap.mp hc'
  have hblt : b < 256 := sha1Bytes_lt (utf8Bytes p) b hb
  simp [hexByteUpper] at hcb
  rcases hcb with h | h <;> subst h
  · exact toLower_hexDigit_mem (b / 16) (by omega)
  · exact toLower_hexDigit_mem (b % 16) (Nat.mod_lt _ (by norm_num))

lemma parseU8_foldl_bound (cs : List Char) :
    ∀ acc n, (∀ v, acc = some v → v ≤ 255) → cs.foldl parseU8Step acc = some n → n ≤ 255 := by
  induction cs with
  | nil => exact fun acc n hacc h => hacc n h
  | cons c t ih =>
      intro acc n hacc h
      refine ih _ n ?_ h
      intro v hv
      rcases acc with _ | w
      · simp [parseU8Step] at hv
      · simp only [parseU8Step] at hv
        split at hv
        · split at hv
          · cases hv; assumption
          · simp at hv
        · simp at hv

lemma parseU8_le (s : String) (n : Nat) (h : parseU8 s = some n) : n ≤ 255 := by
  unfold parseU8 at h
  split at h
  · exact absurd h (by simp)
  · split at h
    · exact absurd h (by simp)
    · exact parseU8_foldl_bound _ _ n (fun v hv => by cases hv; omega) h
  · exact parseU8_foldl_bound _ _ n (fun v hv => by cases hv; omega) h

/-! ### Claims -/

/-- C1: for every hash set and every address, `is_blocked` returns exactly
whether `find_blocked_pattern` returned a match — the boolean query is the
is-some projection of the pattern query, with no independent logic. -/
theorem is_blocked_projection (B : BlockedServers) (a : String) :
    B.is_blocked a = (B.find_blocked_pattern a).isSome := rfl

/-- C2: whenever the lowercase-hex SHA-1 of the address itself is in the hash
set, `find_blocked_pattern` returns the address, regardless of the address's
shape and of any wildcard candidate that would also match. -/
theorem exact_match_priority (B : BlockedServers) (a : String)
    (h : sha1HexLower a ∈ B.hashes) : B.find_blocked_pattern a = some a :=
  exact_branch B a ((is_pattern_blocked_iff B a).mpr h)

theorem exact_match_priority_witness :
    sha1HexLower "127.0.0.1" ∈
      ["4b84b15bff6ee5796152495a230e45e3d7e947d9",
       "426e28604fd685f5b41f557798f548e6357004d9"] ∧
    (BlockedServers.mk
      ["4b84b15bff6ee5796152495a230e45e3d7e947d9",
       "426e28604fd685f5b41f557798f548e6357004d9"]).find_blocked_pattern "127.0.0.1" =
      some "127.0.0.1" :=
  ⟨by decide, exact_match_priority _ _ (by decide)⟩

/-- C3: for an address classified as IPv4 whose exact hash misses, the result
is the first hash hit over exactly the candidates built from the first `i`
segments (`i` from `segment_count - 1` down to `1`) joined by `.` with `.*`
appended, and `none` when no candidate hits. -/
theorem ipv4_wildcard_specificity (B : BlockedServers) (a : String)
    (h1 : sha1HexLower a ∉ B.hashes) (h2 : is_ipv4 (splitOnDot a) = true) :
    B.find_blocked_pattern a =
      (ipv4Candidates (splitOnDot a)).find? fun p => B.is_pattern_blocked p :=
  ipv4_branch B a (is_pattern_blocked_eq_false B a h1) h2

theorem ipv4_wildcard_specificity_witness :
    sha1HexLower "192.0.2.235" ∉ ["8c15fb642b3e8f58480df51798382f1016e748eb"] ∧
    is_ipv4 (splitOnDot "192.0.2.235") = true ∧
    ipv4Candidates (splitOnDot "192.0.2.235") = ["192.0.2.*", "192.0.*", "192.*"] ∧
    (BlockedServers.mk ["8c15fb642b3e8f58480df51798382f1016e748eb"]).find_blocked_pattern
        "192.0.2.235" =
      (ipv4Candidates (splitOnDot "192.0.2.235")).find? (fun p =>
        (BlockedServers.mk ["8c15fb642b3e8f58480df51798382f1016e748eb"]).is_pattern_blocked p) ∧
    (BlockedServers.mk ["8c15fb642b3e8f58480df51798382f1016e748eb"]).find_blocked_pattern
        "192.0.2.235" = some "192.0.*" ∧
    (BlockedServers.mk ["8c15fb642b3e8f58480df51798382f1016e748eb"]).find_blocked_pattern
        "193.0.2.235" = none :=
  ⟨by decide, by decide, by decide,
   ipv4_wildcard_specificity _ _ (by decide) (by decide), by decide, by decide⟩

/-- C4: for an address not classified as IPv4 whose exact hash misses, the
result is the first hash hit over exactly the candidates built by prepending
`*.` to the last `segment_count - i` segments (`i` from `1` up to
`segment_count - 1`) joined by `.`, and `none` when no candidate hits. -/
theorem hostname_wildcard_specificity (B : BlockedServers) (a : String)
    (h1 : sha1HexLower a ∉ B.hashes) (h2 : is_ipv4 (splitOnDot a) = false) :
    B.find_blocked_pattern a =
      (hostnameCandidates (splitOnDot a)).find? fun p => B.is_pattern_blocked p :=
  hostname_branch B a (is_pattern_blocked_eq_false B a h1) h2

theorem hostname_wildcard_specificity_witness :
    sha1HexLower "mc.example.com" ∉ ["8c7122d652cb7be22d1986f1f30b07fd5108d9c0"] ∧
    is_ipv4 (splitOnDot "mc.example.com") = false ∧
    hostnameCandidates (splitOnDot "mc.example.com") = ["*.example.com", "*.com"] ∧
    (BlockedServers.mk ["8c7122d652cb7be22d1986f1f30b07fd5108d9c0"]).find_blocked_pattern
        "mc.example.com" =
      (hostnameCandidates (splitOnDot "mc.example.com")).find? (fun p =>
        (BlockedServers.mk ["8c7122d652cb7be22d1986f1f30b07fd5108d9c0"]).is_pattern_blocked p) ∧
    (BlockedServers.mk ["8c7122d652cb7be22d1986f1f30b07fd5108d9c0"]).find_blocked_pattern
        "mc.example.com" = some "*.example.com" ∧
    (BlockedServers.mk ["8c7122d652cb7be22d1986f1f30b07fd5108d9c0"]).find_blocked_pattern
        "other.com" = none :=
  ⟨by decide, by decide, by decide,
   hostname_wildcard_specificity _ _ (by decide) (by decide), by decide, by decide⟩

/-- C5: `is_ipv4` holds exactly for lists of four segments that each parse as
an unsigned 8-bit decimal integer (hence a value at most 255), with the spec's
four concrete examples. -/
theorem is_ipv4_characterization :
    (∀ l : List String, is_ipv4 l = true ↔ l.length = 4 ∧ ∀ s ∈ l, (parseU8 s).isSome = true) ∧
    (∀ s n, parseU8 s = some n → n ≤ 255) ∧
    is_ipv4 ["192", "0", "2", "235"] = true ∧
    is_ipv4 ["mc", "example", "com"] = false ∧
    is_ipv4 ["999", "0", "0", "1"] = false ∧
    is_ipv4 ["1", "2", "3"] = false := by
  refine ⟨?_, parseU8_le, by decide, by decide, by decide, by decide⟩
  intro l
  simp [is_ipv4, List.all_eq_true]

theorem is_ipv4_characterization_witness :
    parseU8 "235" = some 235 ∧ 235 ≤ 255 ∧ is_ipv4 ["10", "0", "0", "1"] = true :=
  ⟨by decide, is_ipv4_characterization.2.1 "235" 235 (by decide),
   (is_ipv4_characterization.1 ["10", "0", "0", "1"]).mpr ⟨by decide, by decide⟩⟩

/-- C6: the membership test hashes the candidate with SHA-1, renders the
digest as exactly 40 lowercase hexadecimal characters (two zero-padded digits
per byte, nothing else), and returns whether that string is an element of the
stored list under exact string equality. -/
theorem hash_comparison_characterization (B : BlockedServers) (p : String) :
    (B.is_pattern_blocked p = true ↔ sha1HexLower p ∈ B.hashes) ∧
    (sha1HexLower p).length = 40 ∧
    ∀ c ∈ (sha1HexLower p).data, c ∈ hexLowerDigits :=
  ⟨is_pattern_blocked_iff B p, sha1HexLower_length p, sha1HexLower_chars p⟩

theorem hash_comparison_characterization_witness :
    (BlockedServers.mk ["8c15fb642b3e8f58480df51798382f1016e748eb"]).is_pattern_blocked
      "192.0.*" = true ∧
    (sha1HexLower "192.0.*").length = 40 :=
  ⟨(hash_comparison_characterization
      (BlockedServers.mk ["8c15fb642b3e8f58480df51798382f1016e748eb"]) "192.0.*").1.mpr
      (by decide),
   (hash_comparison_characterization (BlockedServers.mk []) "192.0.*").2.1⟩

lemma find_none_of_no_hash (B : BlockedServers) (a : String)
    (h : ∀ p, B.is_pattern_blocked p = false) : B.find_blocked_pattern a = none := by
  simp only [BlockedServers.find_blocked_pattern, h]
  split
  · simp_all
  · split <;> simp [List.find?_eq_none, Option.map_eq_none']

/-- C7: both queries are total functions producing a defined `Option` result
on every input; the empty hash set blocks nothing (in particular no malformed
address ever produces anything but "no match"); a single-label address (no
dot, including the empty string) has empty wildcard candidate ranges, so it
can only match exactly. -/
theorem queries_total_no_failure :
    (∀ (B : BlockedServers) (a : String),
        B.find_blocked_pattern a = none ∨ ∃ p, B.find_blocked_pattern a = some p) ∧
    (∀ a : String, (BlockedServers.mk []).find_blocked_pattern a = none ∧
        (BlockedServers.mk []).is_blocked a = false) ∧
    (∀ (B : BlockedServers) (a : String), (splitOnDot a).length = 1 →
        ipv4Candidates (splitOnDot a) = [] ∧ hostnameCandidates (splitOnDot a) = [] ∧
        (sha1HexLower a ∉ B.hashes → B.find_blocked_pattern a = none)) := by
  refine ⟨?_, ?_, ?_⟩
  · intro B a
    cases h : B.find_blocked_pattern a with
    | none => exact Or.inl rfl
    | some p => exact Or.inr ⟨p, rfl⟩
  · intro a
    have hf := find_none_of_no_hash (BlockedServers.mk []) a fun p => rfl
    exact ⟨hf, by simp [BlockedServers.is_blocked, hf]⟩
  · intro B a h
    have hip : is_ipv4 (splitOnDot a) = false := by simp [is_ipv4, h]
    refine ⟨by simp [ipv4Candidates, h], by simp [hostnameCandidates, h], fun hm => ?_⟩
    rw [hostname_branch B a (is_pattern_blocked_eq_false B a hm) hip]
    simp [hostnameCandidates, h]

theorem queries_total_no_failure_witness :
    (splitOnDot "localhost").length = 1 ∧
    sha1HexLower "localhost" ∉ ["aabb"] ∧
    (BlockedServers.mk ["aabb"]).find_blocked_pattern "localhost" = none ∧
    (BlockedServers.mk []).find_blocked_pattern "" = none :=
  ⟨by decide, by decide,
   (queries_total_no_failure.2.2 (BlockedServers.mk ["aabb"]) "localhost" (by decide)).2.2
     (by decide),
   (queries_total_no_failure.2.1 "").1⟩

/-- C8 counterexample: the hash comparison is not case-insensitive in the
stored entries — uppercasing the single entry that matches `*.example.com`
makes the membership test flip from `true` to `false`, refuting
"p is found blocked under H exactly when p is found blocked under H with the
hex case of every entry changed". -/
theorem hash_case_counterexample :
    (BlockedServers.mk ["8c7122d652cb7be22d1986f1f30b07fd5108d9c0"]).is_pattern_blocked
        "*.example.com" = true ∧
    (BlockedServers.mk
        (["8c7122d652cb7be22d1986f1f30b07fd5108d9c0"].map toUpperString)).is_pattern_blocked
        "*.example.com" = false := by
  exact ⟨by decide, by decide⟩

/-- C8 (amended): construction stores the supplied collection of hash strings
unchanged, and the comparison is case-sensitive with respect to the stored
entries: the computed digest is lowercased and compared by exact string
equality, so an entry containing an uppercase letter never equals a computed
digest and hence never matches. -/
theorem hash_case_sensitive_comparison :
    (∀ h : List String, (BlockedServers.mk h).hashes = h) ∧
    (∀ (B : BlockedServers) (p : String),
        B.is_pattern_blocked p = true ↔ ∃ s ∈ B.hashes, s = sha1HexLower p) ∧
    (∀ p s : String, (∃ c ∈ s.data, 'A' ≤ c ∧ c ≤ 'Z') → s ≠ sha1HexLower p) := by
  refine ⟨fun _ => rfl, ?_, ?_⟩
  · intro B p
    rw [is_pattern_blocked_iff]
    constructor
    · exact fun h => ⟨_, h, rfl⟩
    · rintro ⟨s, hs, rfl⟩; exact hs
  · rintro p s ⟨c, hc, hA, hZ⟩ rfl
    have hmem := sha1HexLower_chars p c hc
    have hnot : ∀ c ∈ hexLowerDigits, ¬('A' ≤ c ∧ c ≤ 'Z') := by decide
    exact hnot c hmem ⟨hA, hZ⟩

theorem hash_case_sensitive_comparison_witness :
    (∃ c ∈ "8C7122D652CB7BE22D1986F1F30B07FD5108D9C0".data, 'A' ≤ c ∧ c ≤ 'Z') ∧
    "8C7122D652CB7BE22D1986F1F30B07FD5108D9C0" ≠ sha1HexLower "*.example.com" :=
  ⟨by decide,
   hash_case_sensitive_comparison.2.2 "*.example.com"
     "8C7122D652CB7BE22D1986F1F30B07FD5108D9C0" (by decide)⟩

/-- C9: the exact-match check runs before any shape classification, so even
the malformed empty address matches when the SHA-1 of the empty string is in
the set, and `is_blocked` agrees. -/
theorem empty_address_exact_match (B : BlockedServers)
    (h : "da39a3ee5e6b4b0d3255bfef95601890afd80709" ∈ B.hashes) :
    B.find_blocked_pattern "" = some "" ∧ B.is_blocked "" = true := by
  have hsha : sha1HexLower "" = "da39a3ee5e6b4b0d3255bfef95601890afd80709" := by decide
  have hb : B.is_pattern_blocked "" = true :=
    (is_pattern_blocked_iff B "").mpr (by rw [hsha]; exact h)
  have hf := exact_branch B "" hb
  exact ⟨hf, by simp [BlockedServers.is_blocked, hf]⟩

theorem empty_address_exact_match_witness :
    "da39a3ee5e6b4b0d3255bfef95601890afd80709" ∈
      ["da39a3ee5e6b4b0d3255bfef95601890afd80709"] ∧
    (BlockedServers.mk
      ["da39a3ee5e6b4b0d3255bfef95601890afd80709"]).find_blocked_pattern "" = some "" ∧
    (BlockedServers.mk ["da39a3ee5e6b4b0d3255bfef95601890afd80709"]).is_blocked "" = true :=
  ⟨by decide,
   (empty_address_exact_match
     (BlockedServers.mk ["da39a3ee5e6b4b0d3255bfef95601890afd80709"]) (by decide)).1,
   (empty_address_exact_match
     (BlockedServers.mk ["da39a3ee5e6b4b0d3255bfef95601890afd80709"]) (by decide)).2⟩

/-- C10: `is_ipv4` accepts any four segments that Rust's `u8` parsing accepts,
including a leading plus sign or leading zeros, so such addresses take the
IPv4 candidate-generation branch of `find_blocked_pattern`. -/
theorem naive_u8_parse_ipv4_branch :
    parseU8 "+17" = some 17 ∧ parseU8 "007" = some 7 ∧
    is_ipv4 ["+17", "0", "0", "1"] = true ∧ is_ipv4 ["007", "0", "0", "1"] = true ∧
    (∀ B : BlockedServers, sha1HexLower "+17.0.0.1" ∉ B.hashes →
        B.find_blocked_pattern "+17.0.0.1" =
          ["+17.0.0.*", "+17.0.*", "+17.*"].find? fun p => B.is_pattern_blocked p) ∧
    (∀ B : BlockedServers, sha1HexLower "007.0.0.1" ∉ B.hashes →
        B.find_blocked_pattern "007.0.0.1" =
          ["007.0.0.*", "007.0.*", "007.*"].find? fun p => B.is_pattern_blocked p) := by
  refine ⟨by decide, by decide, by decide, by decide, ?_, ?_⟩
  · intro B h
    rw [ipv4_branch B _ (is_pattern_blocked_eq_false B _ h) (by decide)]
    have hc : ipv4Candidates (splitOnDot "+17.0.0.1") = ["+17.0.0.*", "+17.0.*", "+17.*"] := by
      decide
    rw [hc]
  · intro B h
    rw [ipv4_branch B _ (is_pattern_blocked_eq_false B _ h) (by decide)]
    have hc : ipv4Candidates (splitOnDot "007.0.0.1") = ["007.0.0.*", "007.0.*", "007.*"] := by
      decide
    rw [hc]

theorem naive_u8_parse_ipv4_branch_witness :
    sha1HexLower "+17.0.0.1" ∉ ([] : List String) ∧
    (BlockedServers.mk []).find_blocked_pattern "+17.0.0.1" =
      (["+17.0.0.*", "+17.0.*", "+17.*"].find? fun p =>
        (BlockedServers.mk []).is_pattern_blocked p) :=
  ⟨by decide, naive_u8_parse_ipv4_branch.2.2.2.2.1 (BlockedServers.mk []) (by decide)⟩

end Mojang
